import Mathlib

/-!
Verification of the db-plumbing document stores.

Local store: src/unnamed/part_001 (module db-plumbing-map), an in-memory
store wrapping an ES6 Map.  Remote store: src/store.js (module
db-plumbing-rest), an HTTP proxy offering the same contract.

Modelling conventions:
  * An ES6 Map is an association list in insertion order: `set` on an
    existing key updates the value in place, `set` on a fresh key appends,
    `delete` removes the (unique) entry for a key, and `values()` iterates
    in insertion order.
  * Map keys are `MapKey`: either a number (every key the store itself
    inserts is the numeric `uid` property of a document) or the JS value
    `undefined`, which `removeAll` ends up passing to `Map.delete`.
  * Documents are the records `{uid, a, b}` used throughout the package's
    tests, with numeric fields so that any field can serve as a key.
  * Promise-returning methods become state-passing functions returning the
    successor store together with the resolved value; a method whose
    promise can reject returns an `Except`.
-/

namespace DbPlumbing

/-- Document type: the `{uid, a, b}` records used by the package's tests.
All fields are numeric so that any field can be used as a key. -/
structure Doc where
  uid : Nat
  a : Nat
  b : Nat
deriving DecidableEq, Repr

/-- Key of an ES6 Map entry as used by this code: a number (the `uid`
property of a stored document) or the JS value `undefined` (which
`removeAll` passes to `Map.delete`). -/
inductive MapKey where
  | num (n : Nat)
  | undef
deriving DecidableEq, Repr

/-- The store's backing ES6 Map, in insertion order. -/
abbrev IdMap := List (MapKey × Doc)

/-- Map.get: the value stored for a key, if any. -/
def mapGet : IdMap → MapKey → Option Doc
  | [], _ => none
  | (k', v) :: rest, k => if k' = k then some v else mapGet rest k

/-- Map.has. -/
def mapHas (m : IdMap) (k : MapKey) : Bool :=
  (mapGet m k).isSome

/-- Map.set: update in place if the key is present, else append. -/
def mapSet : IdMap → MapKey → Doc → IdMap
  | [], k, v => [(k, v)]
  | (k', v') :: rest, k, v =>
      if k' = k then (k, v) :: rest else (k', v') :: mapSet rest k v

/-- Map.delete: remove the entry for a key (keys are unique). -/
def mapDelete : IdMap → MapKey → IdMap
  | [], _ => []
  | (k', v') :: rest, k => if k' = k then rest else (k', v') :: mapDelete rest k

/-- JS values involved in the condition of `Store.remove`:
`! this.idMap.get(key) === undefined`. -/
inductive JSValue where
  | undefined
  | boolean (b : Bool)
  | object (d : Doc)
deriving DecidableEq, Repr

/-- Map.get as seen by JS: a missing key yields `undefined`. -/
def jsGet (m : IdMap) (k : MapKey) : JSValue :=
  match mapGet m k with
  | none => JSValue.undefined
  | some v => JSValue.object v

/-- JS logical not: coerces its operand to a boolean and negates it
(`undefined` is falsy, every object is truthy). -/
def jsNot : JSValue → JSValue
  | JSValue.undefined => JSValue.boolean true
  | JSValue.boolean b => JSValue.boolean (!b)
  | JSValue.object _ => JSValue.boolean false

/-- JS strict equality on the values above.  Values of different types are
never strictly equal; `remove` only ever compares a boolean against
`undefined`, so object identity plays no role. -/
def jsStrictEq : JSValue → JSValue → Bool
  | JSValue.undefined, JSValue.undefined => true
  | JSValue.boolean x, JSValue.boolean y => x == y
  | JSValue.object x, JSValue.object y => x == y
  | _, _ => false

/-- Error type raised when `find` cannot return; `key` is the constructor
argument (`this.key = key`). -/
structure DoesNotExist where
  key : Nat
deriving DecidableEq, Repr

/-- defaultComparator from src/unnamed/part_001: compare two documents by
their extracted keys. -/
def defaultComparator (key : Doc → Nat) (x y : Doc) : Int :=
  if key x < key y then -1 else if key x > key y then 1 else 0

/-- Operation entry of a typed-patch patch.  The store never interprets
these; only the length of the patch's `data` array is observed. -/
inductive PatchOp where
  | rpl (d : Doc)
  | mrg (b : Doc)
  | del
deriving Repr

/-- A typed-patch patch as consumed by `Store.bulk`: an ordered `data`
array of (key, operation) entries, and the externally defined application
function `patch.patch(collection, options)`.  Of the options object the
store builds, only the `sorted` hint can influence the result (the other
members are a logging callback and the element type), so the application
function is modelled on the collection and that hint.  A throwing
application is an `Except.error`. -/
structure Patch where
  data : List (Nat × PatchOp)
  applyFn : IdMap → Bool → Except String IdMap

/-- In-memory document store (class Store of db-plumbing-map).  The
`type` field is omitted: it is only forwarded to the opaque patch engine.
Mutable fields `idMap` and `sorted` plus the configuration fields. -/
structure Store where
  idMap : IdMap
  key : Doc → Nat
  comparator : Doc → Doc → Int
  sorted : Bool

/-- Store constructor: empty map, `sorted` starts true. -/
def Store.new (key : Doc → Nat) (comparator : Doc → Doc → Int) : Store :=
  { idMap := [], key := key, comparator := comparator, sorted := true }

/-- find(key): resolves with the stored value, rejects with DoesNotExist
when `Map.get` yields `undefined`.  Callers pass numeric keys. -/
def Store.find (s : Store) (k : Nat) : Store × Except DoesNotExist Doc :=
  match mapGet s.idMap (MapKey.num k) with
  | none => (s, Except.error ⟨k⟩)
  | some v => (s, Except.ok v)

/-- all getter: `Array.from(this.idMap.values())`, a fresh array of the
values in insertion order. -/
def Store.all (s : Store) : Store × List Doc :=
  (s, s.idMap.map Prod.snd)

/-- findAll(index, value): `this.all.then(all => all.filter(item =>
index(value, item)))`. -/
def Store.findAll {α : Type} (s : Store) (index : α → Doc → Bool) (value : α) :
    Store × List Doc :=
  let (s', l) := s.all
  (s', l.filter (index value))

/-- update(object): clear `sorted` when `object.uid` is a fresh map key,
then `this.idMap.set(object.uid, object)`; resolves with `true`.  Note the
source keys the entry by the `uid` property, not by `this.key(object)`. -/
def Store.update (s : Store) (o : Doc) : Store × Bool :=
  let s₁ := if mapHas s.idMap (MapKey.num o.uid) then s
            else { s with sorted := false }
  ({ s₁ with idMap := mapSet s₁.idMap (MapKey.num o.uid) o }, true)

/-- remove(key): the source's condition is
`if (! this.idMap.get(key) === undefined)`, which JS parses as
`(!this.idMap.get(key)) === undefined` — a boolean compared against
`undefined`. -/
def Store.remove (s : Store) (k : Nat) : Store × Bool :=
  if jsStrictEq (jsNot (jsGet s.idMap (MapKey.num k))) JSValue.undefined then
    ({ s with idMap := mapDelete s.idMap (MapKey.num k) }, true)
  else
    (s, false)

/-- Keys enumerated by `for (let item in items)` over a JS array: the
array's indices, as strings. -/
def forInKeys (items : List Doc) : List String :=
  (List.range items.length).map (fun i => toString i)

/-- Property access `.uid` on a JS string value yields `undefined`. -/
def stringUid (_ : String) : MapKey :=
  MapKey.undef

/-- removeAll(index, value): find the matching items; resolve `false` when
none matched, else run `for (let item in items) this.idMap.delete(item.uid)`
— a for-in loop over the array's index strings, so each iteration deletes
the map key `undefined` — and resolve `true`. -/
def Store.removeAll {α : Type} (s : Store) (index : α → Doc → Bool) (value : α) :
    Store × Bool :=
  let (s₁, items) := s.findAll index value
  if items.length = 0 then (s₁, false)
  else
    ({ s₁ with
        idMap := (forInKeys items).foldl (fun m i => mapDelete m (stringUid i)) s₁.idMap },
      true)

/-- bulk(patch): `this.idMap = patch.patch(this.idMap, {..., sorted:
this.sorted}); this.sorted = true; return Promise.resolve(patch.data.length)`.
A throw from the engine aborts before either assignment. -/
def Store.bulk (s : Store) (p : Patch) : Store × Except String Nat :=
  match p.applyFn s.idMap s.sorted with
  | Except.error e => (s, Except.error e)
  | Except.ok m => ({ s with idMap := m, sorted := true }, Except.ok p.data.length)

/-!
Remote store (src/store.js, module db-plumbing-rest).

The HTTP transport is an external collaborator: `fetch` is modelled as a
function from the constructed Request to the server's Response.  Of a
fetch Response the code reads `status`, `statusText` and `json()`; the
latter returns a promise that rejects when the body is not parsable JSON,
modelled as an `Except`.  JSON (de)serialization is out of scope, so a
parsable body of a `find` response is carried as the decoded document
itself, and a request body as its serialized string.
-/

/-- Headers and JS option objects are ordered key/value lists; property
assignment updates an existing key in place and appends a fresh one. -/
def setKey : List (String × String) → String → String → List (String × String)
  | [], k, v => [(k, v)]
  | (k', v') :: rest, k, v =>
      if k' = k then (k, v) :: rest else (k', v') :: setKey rest k v

/-- Object.assign(base, upd): copy each property of `upd` onto `base` in
order, later sources and later keys winning. -/
def objAssign (base upd : List (String × String)) : List (String × String) :=
  upd.foldl (fun acc kv => setKey acc kv.1 kv.2) base

/-- DEFAULT_HEADERS from src/store.js. -/
def DEFAULT_HEADERS : List (String × String) :=
  [("Content-Type", "application/json")]

/-- Response of the backing server as observed by the code: its status,
status text and the outcome of `response.json()` (for the `find` pipeline
the parsed body is the decoded document). -/
structure Response where
  status : Nat
  statusText : String
  json : Except String Doc
deriving Repr

/-- Errors with which a remote operation's promise can reject:
  * `parseFailure` — the rejection of `response.json()` on a 200 response
    whose body is not parsable JSON (the `try`/`catch` around it in
    `checkStatus` never fires, because `json()` rejects rather than
    throws);
  * `doesNotExist` — `new DoesNotExist(response.statusText)` with
    `error.response = response`, raised on a 404;
  * `generic` — `new Error(response.statusText)` with
    `error.response = response`, raised on any other non-2xx status. -/
inductive RemoteError where
  | parseFailure (msg : String)
  | doesNotExist (key : String) (response : Response)
  | generic (message : String) (response : Response)
deriving Repr

/-- Successful outcome of checkStatus: `true` for a 204 (no body), or the
parsed JSON body of a 200. -/
inductive CheckResult where
  | noContent
  | body (d : Doc)
deriving DecidableEq, Repr

/-- checkStatus from src/store.js: 204 succeeds with no body; 200 yields
`response.json()` (whose parse failure rejects the chain); 404 becomes
DoesNotExist(statusText); anything else becomes Error(statusText); the
response object is attached to either error. -/
def checkStatus (r : Response) : Except RemoteError CheckResult :=
  if r.status == 204 then Except.ok CheckResult.noContent
  else if r.status == 200 then
    match r.json with
    | Except.ok b => Except.ok (CheckResult.body b)
    | Except.error m => Except.error (RemoteError.parseFailure m)
  else if r.status == 404 then
    Except.error (RemoteError.doesNotExist r.statusText r)
  else
    Except.error (RemoteError.generic r.statusText r)

/-- A fetch Request as constructed by the Client: URL, method, the headers
attached by `_addHeaders`, and the serialized body attached by `_addBody`
(JSON.stringify is elided; the body is carried as a string).  The
per-method mode/cache options do not interact with any modelled
behaviour and are omitted. -/
structure Request where
  url : String
  method : String
  headers : List (String × String)
  body : Option String
deriving DecidableEq, Repr

/-- Client (src/store.js): base URL plus the mutable default header set.
The per-method option objects are omitted as above. -/
structure Client where
  base_url : String
  headers : List (String × String)
deriving DecidableEq, Repr

/-- Client constructor: `this.headers = Object.assign({}, DEFAULT_HEADERS,
headers)`. -/
def Client.new (base_url : String) (headers : List (String × String)) : Client :=
  { base_url := base_url, headers := objAssign (objAssign [] DEFAULT_HEADERS) headers }

/-- updateHeaders(headers): `Object.assign(this.headers, headers)`, merging
the new headers into the client's current header set. -/
def Client.updateHeaders (c : Client) (headers : List (String × String)) : Client :=
  { c with headers := objAssign c.headers headers }

/-- getGetRequest(url): a GET Request for `base_url + url` carrying
`new Headers(this.headers)`, read from the client's current state. -/
def Client.getGetRequest (c : Client) (url : String) : Request :=
  { url := c.base_url ++ url, method := "GET", headers := c.headers, body := none }

/-- getDeleteRequest(url). -/
def Client.getDeleteRequest (c : Client) (url : String) : Request :=
  { url := c.base_url ++ url, method := "DELETE", headers := c.headers, body := none }

/-- getPostRequest(url, obj); `obj` is carried in serialized form. -/
def Client.getPostRequest (c : Client) (url : String) (obj : String) : Request :=
  { url := c.base_url ++ url, method := "POST", headers := c.headers, body := some obj }

/-- getPutRequest(url, obj); `obj` is carried in serialized form. -/
def Client.getPutRequest (c : Client) (url : String) (obj : String) : Request :=
  { url := c.base_url ++ url, method := "PUT", headers := c.headers, body := some obj }

/-- IndexMap: index name to query-fragment encoder. -/
abbrev IndexMap := List (String × (String → String))

/-- REST document store (class Store of src/store.js).  The source also
stores a reference to the (mutable) Client and the element type's
constructor; the client's current state is passed to each request-building
call, modelling that reference, and the type's `fromJSON` contract is
subsumed by the decoded `Response.json` field.  Note the store itself
holds no copy of the client's headers. -/
structure RemoteStore where
  endpoint : String
  index_map : IndexMap

/-- getStore(endpoint, type, index_map): factory for a RemoteStore bound
to this client.  The store value captures none of the client's transport
configuration — only the reference (the `c` argument is not copied). -/
def Client.getStore (_c : Client) (endpoint : String) (index_map : IndexMap) :
    RemoteStore :=
  { endpoint := endpoint, index_map := index_map }

/-- singleResourceURI(uid): `${endpoint}/items/${encodeURIComponent(uid)}`;
encodeURIComponent of a decimal numeral is the numeral itself. -/
def RemoteStore.singleResourceURI (st : RemoteStore) (uid : Nat) : String :=
  st.endpoint ++ "/items/" ++ toString uid

/-- find(key) of the remote store: build the GET request with the client's
current state, fetch, run checkStatus, and map the parsed body through
`type.fromJSON` (the body already carries the decoded document).  A 204
leaves `fromJSON` applied to the boolean `true`, i.e. a document with all
fields `undefined`, modelled as zeroes; no claim exercises that branch. -/
def RemoteStore.find (st : RemoteStore) (server : Request → Response)
    (c : Client) (k : Nat) : Except RemoteError Doc :=
  match checkStatus (server (c.getGetRequest (st.singleResourceURI k))) with
  | Except.error e => Except.error e
  | Except.ok (CheckResult.body d) => Except.ok d
  | Except.ok CheckResult.noContent => Except.ok ⟨0, 0, 0⟩

/-!
Sortedness vocabulary and reachable states of the local store.
-/

/-- Comparator of a store constructed with all defaults: documents
compared by their `uid`. -/
def uidCmp : Doc → Doc → Int :=
  defaultComparator Doc.uid

/-- A list of documents is ordered by a comparator when every adjacent
pair compares non-positively. -/
def orderedBy (c : Doc → Doc → Int) : List Doc → Bool
  | x :: y :: rest => decide (c x y ≤ 0) && orderedBy c (y :: rest)
  | _ => true

/-- Adjacent-pairs ordering on a list of numbers. -/
def sortedUids : List Nat → Bool
  | x :: y :: rest => decide (x ≤ y) && sortedUids (y :: rest)
  | _ => true

/-- Every entry of the map is keyed by its value's `uid` — true of every
map the store builds itself, and part of the patch engine's contract. -/
def keysMatchUid (m : IdMap) : Prop :=
  ∀ e ∈ m, e.1 = MapKey.num e.2.uid

/-- Contract of the external patch engine assumed by the sortedness
claim: a successful application returns a collection in canonical
comparator order (here, of the default uid comparator) keyed by each
value's uid. -/
def GoodPatch (p : Patch) : Prop :=
  ∀ m b m', p.applyFn m b = Except.ok m' →
    orderedBy uidCmp (m'.map Prod.snd) = true ∧ keysMatchUid m'

/-- Local-store states reachable, from a freshly constructed store with
the default (uid) comparator, by any sequence of the six operations, where
every patch handed to `bulk` satisfies the engine contract above. -/
inductive ReachUid : Store → Prop where
  | init (key : Doc → Nat) : ReachUid (Store.new key uidCmp)
  | find (s : Store) (k : Nat) : ReachUid s → ReachUid (s.find k).1
  | all (s : Store) : ReachUid s → ReachUid s.all.1
  | findAll {α : Type} (s : Store) (index : α → Doc → Bool) (value : α) :
      ReachUid s → ReachUid (s.findAll index value).1
  | update (s : Store) (o : Doc) : ReachUid s → ReachUid (s.update o).1
  | remove (s : Store) (k : Nat) : ReachUid s → ReachUid (s.remove k).1
  | removeAll {α : Type} (s : Store) (index : α → Doc → Bool) (value : α) :
      ReachUid s → ReachUid (s.removeAll index value).1
  | bulk (s : Store) (p : Patch) : GoodPatch p → ReachUid s → ReachUid (s.bulk p).1

/-- Invariant carried through the reachability induction. -/
def StoreInv (s : Store) : Prop :=
  keysMatchUid s.idMap ∧
    (s.sorted = true → orderedBy uidCmp (s.idMap.map Prod.snd) = true)

/-!
Concrete fixtures for witnesses and counterexamples.
-/

/-- Comparator ordering documents by their `a` field — a legitimate
constructor argument for the store. -/
def cmpA (x y : Doc) : Int :=
  if x.a < y.a then -1 else if x.a > y.a then 1 else 0

/-- Collection the counterexample engine returns: ordered by `cmpA`
(field `a`: 2 then 3) and keyed by uid. -/
def cexCollection : IdMap :=
  [(MapKey.num 1, ⟨1, 2, 0⟩), (MapKey.num 2, ⟨2, 3, 0⟩)]

/-- Patch whose engine returns `cexCollection` (in comparator order, as
the engine contract demands). -/
def cexPatch : Patch :=
  { data := [], applyFn := fun _ _ => Except.ok cexCollection }

/-- State reached by bulk-applying `cexPatch` to a fresh store ordered by
`cmpA` and then updating the existing document with uid 1 to a new value
whose `a` field is out of order. -/
def cexS2 : Store :=
  ((((Store.new Doc.uid cmpA).bulk cexPatch).1).update ⟨1, 9, 0⟩).1

/-- Well-behaved concrete patch used to exhibit a nonempty reachable
sorted store. -/
def wPatch : Patch :=
  { data := [],
    applyFn := fun _ _ =>
      Except.ok [(MapKey.num 1, ⟨1, 0, 0⟩), (MapKey.num 2, ⟨2, 0, 0⟩)] }

/-- Patch whose engine throws. -/
def failPatch : Patch :=
  { data := [], applyFn := fun _ _ => Except.error "engine failure" }

/-- Patch with one entry whose engine returns the collection unchanged. -/
def okPatch : Patch :=
  { data := [(1, PatchOp.rpl ⟨1, 0, 0⟩)], applyFn := fun m _ => Except.ok m }

/-- Server that answers 404 Not Found to every request. -/
def server404 : Request → Response :=
  fun _ => { status := 404, statusText := "Not Found", json := Except.error "no body" }

/-- Server that answers 200 with a body that is not parsable JSON. -/
def server200bad : Request → Response :=
  fun _ => { status := 200, statusText := "OK", json := Except.error "Unexpected token" }

/-- A remote store on the empty endpoint with an empty index map. -/
def st0 : RemoteStore :=
  { endpoint := "", index_map := [] }

/-- A client on a concrete base URL with no extra headers. -/
def c0 : Client :=
  Client.new "http://127.0.0.1:8666" []

/-- Store holding the single document `{uid 1, a 0, b 0}`. -/
def sOne : Store :=
  ((Store.new Doc.uid uidCmp).update ⟨1, 0, 0⟩).1

/-- Store holding the single document `{uid 1, a 5, b 0}`. -/
def sA : Store :=
  ((Store.new Doc.uid uidCmp).update ⟨1, 5, 0⟩).1

/-- Index predicate matching documents by their `a` field (the `byA`
index of the package's tests). -/
def byA (v : Nat) (d : Doc) : Bool :=
  d.a == v

/-!
Claim theorems: local-store evaluations and bulk behaviour.
-/

/-- C1: the round-trip property fails on the code.  For the Local Store
constructed with key-extraction function `key := fun d => d.a`,
`update ⟨1,2,0⟩` keys the entry by the document's `uid` property 1
instead of `key d = 2`, so the subsequent `find (key d)` rejects with
DoesNotExist while the document sits under key 1. -/
theorem update_find_roundtrip_bug :
    ((((Store.new (fun d => d.a) (defaultComparator (fun d => d.a))).update
        ⟨1, 2, 0⟩).1).find 2).2 = Except.error ⟨2⟩
    ∧ ((((Store.new (fun d => d.a) (defaultComparator (fun d => d.a))).update
        ⟨1, 2, 0⟩).1).find 1).2 = Except.ok ⟨1, 2, 0⟩ :=
  ⟨rfl, rfl⟩

/-- C2: `remove` never removes.  The source condition
`! this.idMap.get(key) === undefined` compares a boolean against
`undefined` and is always false, so on a store that does contain key 1,
`remove 1` resolves with `false`, the entry survives, and a subsequent
`find 1` still succeeds. -/
theorem remove_never_removes :
    (sOne.remove 1).2 = false
    ∧ (sOne.remove 1).1.idMap = sOne.idMap
    ∧ (((sOne.remove 1).1).find 1).2 = Except.ok ⟨1, 0, 0⟩ :=
  ⟨rfl, rfl, rfl⟩

/-- C3: `removeAll` deletes nothing.  On a store containing the matching
document `{uid 1, a 5, b 0}`, `removeAll byA 5` resolves with `true` (one
item matched) but its for-in loop deletes the map key `undefined` once per
matched item, so the collection is unchanged and `find 1` still
succeeds. -/
theorem removeAll_removes_nothing :
    (sA.removeAll byA 5).2 = true
    ∧ (sA.removeAll byA 5).1.idMap = sA.idMap
    ∧ (((sA.removeAll byA 5).1).find 1).2 = Except.ok ⟨1, 5, 0⟩ :=
  ⟨rfl, rfl, rfl⟩

/-- C4: bulk atomicity.  When the patch engine fails, `bulk` propagates
exactly that failure and the store — collection, flags and configuration —
is left as it was: the new collection is assigned only from a successful
engine result. -/
theorem bulk_engine_failure_leaves_store (s : Store) (p : Patch) (e : String)
    (h : p.applyFn s.idMap s.sorted = Except.error e) :
    s.bulk p = (s, Except.error e) := by
  unfold Store.bulk
  rw [h]

/-- Witness for C4 at the concrete always-failing patch. -/
theorem bulk_engine_failure_leaves_store_witness :
    (Store.new Doc.uid uidCmp).bulk failPatch
      = (Store.new Doc.uid uidCmp, Except.error "engine failure") :=
  bulk_engine_failure_leaves_store (Store.new Doc.uid uidCmp) failPatch
    "engine failure" rfl

/-- C8: on success, `bulk` hands the engine the current collection and the
current `sorted` flag as hint, adopts the returned collection, resets
`sorted` to true, and resolves with the length of the patch's `data`
array. -/
theorem bulk_success_behaviour (s : Store) (p : Patch) (m : IdMap)
    (h : p.applyFn s.idMap s.sorted = Except.ok m) :
    s.bulk p = ({ s with idMap := m, sorted := true }, Except.ok p.data.length) := by
  unfold Store.bulk
  rw [h]

/-- Witness for C8 at a concrete one-entry patch applied to an empty
store. -/
theorem bulk_success_behaviour_witness :
    (Store.new Doc.uid uidCmp).bulk okPatch
      = ({ Store.new Doc.uid uidCmp with idMap := [], sorted := true },
          Except.ok 1) :=
  bulk_success_behaviour (Store.new Doc.uid uidCmp) okPatch [] rfl

/-- C10: the read operations mutate nothing: `find`, the `all` getter and
`findAll` return the store with collection, sorted flag, comparator and
key function exactly as they were (the arrays they resolve with are fresh
values, built by `Array.from` and `filter`). -/
theorem read_ops_leave_store_unchanged {α : Type} (s : Store) (k : Nat)
    (index : α → Doc → Bool) (value : α) :
    (s.find k).1 = s ∧ s.all.1 = s ∧ (s.findAll index value).1 = s := by
  refine ⟨?_, rfl, rfl⟩
  unfold Store.find
  cases mapGet s.idMap (MapKey.num k) <;> rfl

/-!
Claim theorems: remote store.
-/

/-- C9: headers are read from the client's current state when a request is
built.  After `updateHeaders h`, every request produced by each of the
four builders carries the merge of the client's previous headers with `h`,
and a store built from the client captures no header state at
construction (`getStore` yields the same store for any client state). -/
theorem headers_read_at_request_time (c : Client) (h : List (String × String))
    (endpoint url body : String) (im : IndexMap) :
    ((c.updateHeaders h).getGetRequest url).headers = objAssign c.headers h
    ∧ ((c.updateHeaders h).getDeleteRequest url).headers = objAssign c.headers h
    ∧ ((c.updateHeaders h).getPostRequest url body).headers = objAssign c.headers h
    ∧ ((c.updateHeaders h).getPutRequest url body).headers = objAssign c.headers h
    ∧ ∀ c' : Client, c.getStore endpoint im = c'.getStore endpoint im :=
  ⟨rfl, rfl, rfl, rfl, fun _ => rfl⟩

/-- C6 (amended): a 404 from the backing server makes `find` reject with a
DoesNotExist error — not a generic error — whose key field carries the
response's status text (the response object itself is attached for
inspection). -/
theorem find_404_rejects_doesNotExist (st : RemoteStore) (server : Request → Response)
    (c : Client) (k : Nat)
    (h : (server (c.getGetRequest (st.singleResourceURI k))).status = 404) :
    st.find server c k
      = Except.error (RemoteError.doesNotExist
          (server (c.getGetRequest (st.singleResourceURI k))).statusText
          (server (c.getGetRequest (st.singleResourceURI k)))) := by
  unfold RemoteStore.find checkStatus
  rw [h]
  rfl

/-- C6 counterexample: the DoesNotExist error raised for key 42 carries
the status text "Not Found" as its key, which does not identify the
requested key (it is not the string of 42): the claim that `find` rejects
with a DoesNotExist "carrying that key's identifying information" fails as
stated. -/
theorem find_404_key_not_carried :
    st0.find server404 c0 42
      = Except.error (RemoteError.doesNotExist "Not Found"
          { status := 404, statusText := "Not Found", json := Except.error "no body" })
    ∧ "Not Found" ≠ toString 42 :=
  ⟨rfl, by decide⟩

/-- Witness for C6 at a concrete all-404 server. -/
theorem find_404_rejects_doesNotExist_witness :
    st0.find server404 c0 7
      = Except.error (RemoteError.doesNotExist
          (server404 (c0.getGetRequest (st0.singleResourceURI 7))).statusText
          (server404 (c0.getGetRequest (st0.singleResourceURI 7)))) :=
  find_404_rejects_doesNotExist st0 server404 c0 7 rfl

/-- C7: a 200 response whose body is not parsable JSON makes the operation
reject with the parse failure — an error distinct from every DoesNotExist
error — and the failure is propagated, not swallowed. -/
theorem parse_failure_distinct_error (st : RemoteStore) (server : Request → Response)
    (c : Client) (k : Nat) (m : String)
    (h200 : (server (c.getGetRequest (st.singleResourceURI k))).status = 200)
    (hbad : (server (c.getGetRequest (st.singleResourceURI k))).json = Except.error m) :
    st.find server c k = Except.error (RemoteError.parseFailure m)
    ∧ ∀ (key : String) (r : Response),
        RemoteError.parseFailure m ≠ RemoteError.doesNotExist key r := by
  constructor
  · unfold RemoteStore.find checkStatus
    rw [h200, hbad]
    rfl
  · intro key r hcontra
    exact RemoteError.noConfusion hcontra

/-- Witness for C7 at a concrete server answering 200 with an unparsable
body. -/
theorem parse_failure_distinct_error_witness :
    st0.find server200bad c0 1
      = Except.error (RemoteError.parseFailure "Unexpected token") :=
  (parse_failure_distinct_error st0 server200bad c0 1 "Unexpected token" rfl rfl).1

/-!
Sortedness invariant of the local store (claim C5): supporting lemmas.
-/

/-- Inserting a document under its own uid preserves uid-keyedness. -/
theorem keysMatchUid_mapSet : ∀ (m : IdMap) (o : Doc), keysMatchUid m →
    keysMatchUid (mapSet m (MapKey.num o.uid) o)
  | [], o, _ => by
      intro e he
      simp only [mapSet, List.mem_singleton] at he
      subst he
      rfl
  | (k', v') :: rest, o, hm => by
      have hm' : keysMatchUid rest := fun e he => hm e (List.mem_cons_of_mem _ he)
      intro e he
      by_cases hk : k' = MapKey.num o.uid
      · rw [mapSet, if_pos hk] at he
        rcases List.mem_cons.mp he with h1 | h2
        · subst h1; rfl
        · exact hm' e h2
      · rw [mapSet, if_neg hk] at he
        rcases List.mem_cons.mp he with h1 | h2
        · subst h1; exact hm _ (List.mem_cons_self _ _)
        · exact keysMatchUid_mapSet rest o hm' e h2

/-- Deleting the key `undefined` from a uid-keyed map changes nothing. -/
theorem mapDelete_undef_eq : ∀ (m : IdMap), keysMatchUid m →
    mapDelete m MapKey.undef = m
  | [], _ => rfl
  | (k', v') :: rest, hm => by
      have hk : k' = MapKey.num v'.uid := hm (k', v') (List.mem_cons_self _ _)
      have hne : ¬ k' = MapKey.undef := by rw [hk]; intro hcon; cases hcon
      rw [mapDelete, if_neg hne,
        mapDelete_undef_eq rest (fun e he => hm e (List.mem_cons_of_mem _ he))]

/-- The removeAll loop — one `Map.delete(undefined)` per matched item —
leaves a uid-keyed map unchanged. -/
theorem foldl_delete_undef : ∀ (l : List String) (m : IdMap), keysMatchUid m →
    l.foldl (fun m i => mapDelete m (stringUid i)) m = m
  | [], _, _ => rfl
  | i :: rest, m, hm => by
      simp only [List.foldl, stringUid]
      rw [mapDelete_undef_eq m hm]
      exact foldl_delete_undef rest m hm

/-- Replacing the entry of an already-present uid key leaves the list of
stored uids unchanged (the replaced value carried the same uid, by
uid-keyedness). -/
theorem mapSet_values_uid_list : ∀ (m : IdMap) (o : Doc), keysMatchUid m →
    mapHas m (MapKey.num o.uid) = true →
    ((mapSet m (MapKey.num o.uid) o).map Prod.snd).map Doc.uid
      = (m.map Prod.snd).map Doc.uid
  | [], o, _, hhas => by simp [mapHas, mapGet] at hhas
  | (k', v') :: rest, o, hm, hhas => by
      by_cases hk : k' = MapKey.num o.uid
      · have h1 : k' = MapKey.num v'.uid := hm _ (List.mem_cons_self _ _)
        have h2 : v'.uid = o.uid := by
          rw [hk] at h1
          injection h1 with h3
          exact h3.symm
        rw [mapSet, if_pos hk]
        simp only [List.map]
        rw [h2]
      · have hhas' : mapHas rest (MapKey.num o.uid) = true := by
          rw [mapHas, mapGet, if_neg hk] at hhas
          exact hhas
        rw [mapSet, if_neg hk]
        simp only [List.map]
        rw [mapSet_values_uid_list rest o
          (fun e he => hm e (List.mem_cons_of_mem _ he)) hhas']

/-- The default uid comparator is non-positive exactly when the uids are
in order. -/
theorem uidCmp_nonpos (x y : Doc) : uidCmp x y ≤ 0 ↔ x.uid ≤ y.uid := by
  unfold uidCmp defaultComparator
  split_ifs with h1 h2 <;> constructor <;> intro h <;> omega

/-- Ordering by the uid comparator is ordering of the uid list. -/
theorem orderedBy_eq_sortedUids : ∀ (l : List Doc),
    orderedBy uidCmp l = sortedUids (l.map Doc.uid)
  | [] => rfl
  | [_] => rfl
  | x :: y :: rest => by
      simp only [orderedBy, sortedUids, List.map]
      rw [orderedBy_eq_sortedUids (y :: rest)]
      simp only [List.map]
      congr 1
      exact decide_eq_decide.mpr (uidCmp_nonpos x y)

/-- Every state reachable by the store's own operations (with a
contract-abiding patch engine) is uid-keyed, and ordered by the default
comparator whenever its `sorted` flag is set. -/
theorem reachUid_inv : ∀ (s : Store), ReachUid s → StoreInv s := by
  intro s h
  induction h with
  | init key =>
      exact ⟨fun e he => absurd he (List.not_mem_nil e), fun _ => rfl⟩
  | find s k hr ih =>
      have hfst : (s.find k).1 = s := by
        unfold Store.find
        cases mapGet s.idMap (MapKey.num k) <;> rfl
      rw [hfst]; exact ih
  | all s hr ih => exact ih
  | findAll s index value hr ih => exact ih
  | update s o hr ih =>
      cases hb : mapHas s.idMap (MapKey.num o.uid) with
      | true =>
          have hfst : (s.update o).1
              = { s with idMap := mapSet s.idMap (MapKey.num o.uid) o } := by
            unfold Store.update
            rw [hb]
            rfl
          rw [hfst]
          refine ⟨keysMatchUid_mapSet s.idMap o ih.1, fun hs => ?_⟩
          have hold := ih.2 hs
          rw [orderedBy_eq_sortedUids] at hold ⊢
          rw [mapSet_values_uid_list s.idMap o ih.1 hb]
          exact hold
      | false =>
          have hfst : (s.update o).1
              = { s with idMap := mapSet { s with sorted := false }.idMap (MapKey.num o.uid) o, sorted := false } := by
            unfold Store.update
            rw [hb]
            rfl
          rw [hfst]
          exact ⟨keysMatchUid_mapSet s.idMap o ih.1, fun hs => absurd hs (by simp)⟩
  | remove s k hr ih =>
      have hfst : (s.remove k).1 = s := by
        unfold Store.remove
        cases hg : mapGet s.idMap (MapKey.num k) <;>
          simp [jsGet, jsNot, jsStrictEq, hg]
      rw [hfst]; exact ih
  | removeAll s index value hr ih =>
      have hfst : (s.removeAll index value).1 = s := by
        simp only [Store.removeAll, Store.findAll, Store.all]
        split
        · rfl
        · simp only [foldl_delete_undef _ _ ih.1]
      rw [hfst]; exact ih
  | bulk s p hp hr ih =>
      cases hq : p.applyFn s.idMap s.sorted with
      | error e =>
          have hfst : (s.bulk p).1 = s := by
            unfold Store.bulk
            rw [hq]
          rw [hfst]; exact ih
      | ok m =>
          have hfst : (s.bulk p).1 = { s with idMap := m, sorted := true } := by
            unfold Store.bulk
            rw [hq]
          rw [hfst]
          obtain ⟨hord, hkeys⟩ := hp s.idMap s.sorted m hq
          exact ⟨hkeys, fun _ => hord⟩

/-- C5 (amended): for stores whose comparator is the default comparator
induced by `d ↦ d.uid` (a store constructed with default arguments), and
assuming the patch engine returns uid-keyed collections in comparator
order, every reachable state satisfies: `sorted = true` implies the
collection in insertion order is comparator-ordered; moreover `update`
clears `sorted` exactly when the document's uid was previously absent
(leaving it untouched otherwise), and a successful `bulk` resets `sorted`
to true. -/
theorem sorted_flag_invariant (s : Store) (h : ReachUid s) :
    (s.sorted = true → orderedBy uidCmp (s.idMap.map Prod.snd) = true)
    ∧ (∀ o : Doc, ((s.update o).1).sorted
        = if mapHas s.idMap (MapKey.num o.uid) then s.sorted else false)
    ∧ (∀ (p : Patch) (n : Nat), (s.bulk p).2 = Except.ok n →
        ((s.bulk p).1).sorted = true) := by
  refine ⟨(reachUid_inv s h).2, ?_, ?_⟩
  · intro o
    cases hb : mapHas s.idMap (MapKey.num o.uid) <;>
      simp [Store.update, hb]
  · intro p n hn
    cases hq : p.applyFn s.idMap s.sorted with
    | error e =>
        rw [Store.bulk, hq] at hn
        exact absurd hn (by simp)
    | ok m =>
        rw [Store.bulk, hq]

/-- C5 counterexample to the claim as stated: with the legitimate
comparator `cmpA` (ordering documents by their `a` field), the engine
returns a collection in comparator order, `bulk` adopts it with
`sorted = true`, and a subsequent `update` of the existing uid 1 keeps
`sorted = true` while breaking the comparator order — so `sorted = true`
does not imply comparator order for arbitrary comparators. -/
theorem sorted_flag_invariant_fails_as_stated :
    cexPatch.applyFn [] true = Except.ok cexCollection
    ∧ orderedBy cmpA (cexCollection.map Prod.snd) = true
    ∧ cexS2.sorted = true
    ∧ orderedBy cmpA (cexS2.idMap.map Prod.snd) = false :=
  ⟨rfl, rfl, rfl, rfl⟩

/-- The fixture patch obeys the engine contract of the amended claim. -/
theorem wPatch_good : GoodPatch wPatch := by
  intro m b m' h
  simp only [wPatch, Except.ok.injEq] at h
  subst h
  exact ⟨by decide, by unfold keysMatchUid; decide⟩

/-- Witness for C5 at a concrete reachable two-document store obtained by
a contract-abiding bulk application. -/
theorem sorted_flag_invariant_witness :
    orderedBy uidCmp ((((Store.new Doc.uid uidCmp).bulk wPatch).1).idMap.map
      Prod.snd) = true :=
  (sorted_flag_invariant (((Store.new Doc.uid uidCmp).bulk wPatch).1)
      (ReachUid.bulk (Store.new Doc.uid uidCmp) wPatch wPatch_good
        (ReachUid.init Doc.uid))).1 rfl

end DbPlumbing
